import Mathlib

/-!
Shallow embedding of the price-tracker application (`src/app.py`).

The data model (`Product`, `PriceHistory`), the extractor
(`scrape_product_data`), the create / delete endpoints (`ProductList.post`,
`ProductResource.delete`) and the scheduled reconciliation job
(`update_prices_job`) are translated into executable Lean definitions.
External collaborators are modelled as parameters:

* the HTTP transport (`requests.get` + `raise_for_status`) and the parsed
  HTML document (BeautifulSoup's `select_one(...).get_text(strip=True)`)
  are a `WebEnv`: a function from URL to an optional document, a document
  being a function from CSS selector to the optional stripped text of the
  first matching element;
* the SQLite database is a `Store`: insertion-ordered lists of rows plus
  autoincrement counters;
* Python `float` prices are modelled as exact rationals (`Rat`); every
  price comparison in the source is an exact `==`/`!=`, and the parsing
  path manipulates only decimal strings, so no float rounding is involved
  in any claim considered here;
* timestamps (`db.func.now()`, second resolution) are `Nat`.

The module-level global `SITE_SELECTORS` is passed to the functions that
read it as an explicit `selectors` argument, and the shipped value is the
definition `SITE_SELECTORS` below.
-/

/-- A value of the `SITE_SELECTORS` dictionary.  In the source the shipped
entry is a single parenthesized *string*; the intended shape (per the
surrounding code, which destructures it into a price selector and a name
selector) is a 2-tuple of strings.  Python destructuring iterates the
value, so both shapes must be representable. -/
inductive SelEntry where
  | str (s : String)
  | pair (priceSel nameSel : String)
deriving DecidableEq

/-- Python `price_selector, name_selector = entry`: destructuring a 2-tuple
succeeds; destructuring a string succeeds only when it has exactly two
characters (each target is bound to a 1-character string), and otherwise
raises `ValueError` (modelled as `none`). -/
def unpack2 : SelEntry → Option (String × String)
  | SelEntry.pair p n => some (p, n)
  | SelEntry.str s =>
    match s.toList with
    | [a, b] => some (String.mk [a], String.mk [b])
    | _ => none

/-- The shipped selector string for `www.ozon.ru` (src/app.py line 61): a
single parenthesized string, not a (price, name) tuple. -/
def ozonSelector : String :=
  "#layoutPage > div.b6 > div.container.c > div.lq0_27.ql3_27.ql5_27 > div.m4v_27 > div > div > div.lq0_27.ql6_27.ql3_27.lq4_27 > div.rm1_27.r3m_27 > div > div.r1m_27 > div > div > div.m0o_27 > div.m7n_27.a201-a.a201-a3 > button > span > div > div.km0_27.mk0_27 > div > div > span"

/-- `SITE_SELECTORS` as shipped (src/app.py lines 60-63): one entry. -/
def SITE_SELECTORS : List (String × SelEntry) :=
  [("www.ozon.ru", SelEntry.str ozonSelector)]

/-- `domain in SITE_SELECTORS` / `SITE_SELECTORS[domain]`: first entry with
the given key. -/
def lookupSel (selectors : List (String × SelEntry)) (domain : String) : Option SelEntry :=
  (selectors.find? (fun kv => kv.1 == domain)).map (fun kv => kv.2)

/-- Scan for the first `"://"` and return the characters after it;
`none` when the URL has no `"://"`. -/
def afterSchemeSep : List Char → Option (List Char)
  | [] => none
  | ':' :: '/' :: '/' :: rest => some rest
  | _ :: rest => afterSchemeSep rest

/-- `urlparse(url).netloc` for the `scheme://host/path` URLs this app
handles: the text between `"://"` and the next `'/'` (empty when the URL
has no scheme separator, as `urlparse` then yields an empty netloc). -/
def netloc (url : String) : String :=
  match afterSchemeSep url.toList with
  | none => ""
  | some rest => String.mk (rest.takeWhile (fun c => c != '/'))

/-- The cleaning chain of src/app.py line 95:
`.replace(' ', '').replace('₽', '').replace(',', '.')`.  All three
patterns are single characters, so `str.replace` is character-wise
deletion / substitution. -/
def cleanPriceText (t : String) : String :=
  String.mk (((t.toList.filter (fun c => c != ' ')).filter (fun c => c != '₽')).map
    (fun c => if c = ',' then '.' else c))

/-- `filter(str.isdigit or str.isclose, price_text)` of src/app.py line 96.
`str.isdigit or str.isclose` short-circuits to the (truthy) function
`str.isdigit`, so the filter keeps exactly the digit characters —
including deleting any decimal point.  ASCII digits suffice for the texts
this app manipulates. -/
def digitsOnly (t : String) : String :=
  String.mk (t.toList.filter Char.isDigit)

/-- Decimal value of an all-digit string, as a natural number. -/
def digitsToNat (t : String) : Nat :=
  t.toList.foldl (fun acc c => 10 * acc + (c.toNat - 48)) 0

/-- `float(''.join(filter(str.isdigit or str.isclose, price_text)))` after
the cleaning chain: the joined string is all digits, so `float` returns
its decimal value, except that `float('')` raises `ValueError`
(modelled as `none`). -/
def normalizePrice (priceText : String) : Option Rat :=
  let d := digitsOnly (cleanPriceText priceText)
  if d.isEmpty then none else some ((digitsToNat d : Nat) : Rat)

/-- A fetched page: CSS selector to optional stripped text of the first
matching element (`select_one` + `get_text(strip=True)`); `none` models
`select_one` finding no element. -/
def Doc : Type := String → Option String

/-- The external web: URL to `some` parsed document on HTTP success, or
`none` when `requests.get` / `raise_for_status` raises
`requests.RequestException` (timeout, transport error, non-2xx status). -/
structure WebEnv where
  fetch : String → Option Doc

/-- The exception types raised inside the `try` block of
`scrape_product_data` — exactly the types its `except` clause catches. -/
inductive ScrapeExc where
  | requestException
  | valueError
  | typeError
deriving DecidableEq

/-- The `try` body of `scrape_product_data` (src/app.py lines 71-98):
`Except.error` is a raised exception, `Except.ok none` is the explicit
`return None, None` at line 91, `Except.ok (some (name, price))` is
success. -/
def scrape_body (selectors : List (String × SelEntry)) (env : WebEnv) (url : String) :
    Except ScrapeExc (Option (String × Rat)) :=
  match env.fetch url with
  | none => Except.error ScrapeExc.requestException
  | some doc =>
    match lookupSel selectors (netloc url) with
    | none => Except.error ScrapeExc.valueError
    | some entry =>
      match unpack2 entry with
      | none => Except.error ScrapeExc.valueError
      | some (priceSelector, nameSelector) =>
        match doc nameSelector, doc priceSelector with
        | some nameText, some priceText =>
          match normalizePrice priceText with
          | none => Except.error ScrapeExc.valueError
          | some price => Except.ok (some (nameText, price))
        | some _, none => Except.ok none
        | none, _ => Except.ok none

/-- `scrape_product_data(url)` (src/app.py lines 66-101): the `except`
clause catches every exception the body raises and converts it to the
sentinel `(None, None)`. -/
def scrape_product_data (selectors : List (String × SelEntry)) (env : WebEnv) (url : String) :
    Option (String × Rat) :=
  match scrape_body selectors env url with
  | Except.ok r => r
  | Except.error _ => none

/-- A row of the `product` table. -/
structure Product where
  id : Nat
  url : String
  name : String
  domain : String
deriving DecidableEq

/-- A row of the `price_history` table. -/
structure PriceHistory where
  id : Nat
  price : Rat
  timestamp : Nat
  product_id : Nat
deriving DecidableEq

/-- The database: rows in insertion (rowid) order, plus the autoincrement
counters for the two primary keys. -/
structure Store where
  products : List Product
  prices : List PriceHistory
  nextProductId : Nat
  nextPriceId : Nat
deriving DecidableEq

/-- `PriceHistory.query.filter_by(product_id=pid)` in insertion order. -/
def historyOf (s : Store) (pid : Nat) : List PriceHistory :=
  s.prices.filter (fun e => e.product_id == pid)

/-- Head of a stable descending-timestamp sort: the first row in insertion
order whose timestamp is maximal. -/
def argmaxTs : List PriceHistory → Option PriceHistory
  | [] => none
  | e :: es =>
    match argmaxTs es with
    | none => some e
    | some b => if b.timestamp > e.timestamp then some b else some e

/-- `PriceHistory.query.filter_by(product_id=pid).order_by(PriceHistory.timestamp.desc()).first()`
(src/app.py line 172).  The SQL `ORDER BY` names no tiebreaker; rows enter
the sort in rowid order, so among rows with equal maximal timestamp the
earliest-inserted one is returned. -/
def last_price_entry (s : Store) (pid : Nat) : Option PriceHistory :=
  argmaxTs (historyOf s pid)

/-- `db.session.add(PriceHistory(price=price, product_id=pid))` followed by
commit: append one row, timestamp assigned by `db.func.now()`. -/
def appendPrice (s : Store) (pid : Nat) (price : Rat) (now : Nat) : Store :=
  { s with
    prices := s.prices ++ [⟨s.nextPriceId, price, now, pid⟩],
    nextPriceId := s.nextPriceId + 1 }

/-- One iteration of the `update_prices_job` loop body for one product
(src/app.py lines 168-176), with the extraction outcome already obtained:
on failure the product is skipped; on success with price `p`, a row is
appended exactly when there is no previous row for the product or the
last recorded price differs from `p` (exact `!=` on the value). -/
def reconcile_step (res : Option (String × Rat)) (s : Store) (prod : Product) (now : Nat) :
    Store :=
  match res with
  | none => s
  | some (_, price) =>
    match last_price_entry s prod.id with
    | none => appendPrice s prod.id price now
    | some lastE => if lastE.price ≠ price then appendPrice s prod.id price now else s

/-- `update_prices_job()` (src/app.py lines 163-178): list all products
once, then reconcile each in turn; the extracted name is discarded
(`_, price = ...`) and the single commit at the end flushes the appended
rows. -/
def update_prices_job (selectors : List (String × SelEntry)) (env : WebEnv) (s : Store)
    (now : Nat) : Store :=
  s.products.foldl
    (fun st prod => reconcile_step (scrape_product_data selectors env prod.url) st prod now) s

/-- Outcome of `POST /products/` (`ProductList.post`). -/
inductive CreateResult where
  | conflict409
  | badRequest400
  | created (p : Product)
deriving DecidableEq

/-- `ProductList.post` (src/app.py lines 115-140): 409 when a product with
the URL exists (`abort` raises before any mutation); 400 when scraping
fails; otherwise the new `Product` row and its seed `PriceHistory` row are
added and committed together (one transaction). -/
def ProductList_post (selectors : List (String × SelEntry)) (env : WebEnv) (s : Store)
    (url : String) (now : Nat) : CreateResult × Store :=
  match s.products.find? (fun p => p.url == url) with
  | some _ => (CreateResult.conflict409, s)
  | none =>
    match scrape_product_data selectors env url with
    | none => (CreateResult.badRequest400, s)
    | some (name, price) =>
      (CreateResult.created ⟨s.nextProductId, url, name, netloc url⟩,
       { products := s.products ++ [⟨s.nextProductId, url, name, netloc url⟩],
         prices := s.prices ++ [⟨s.nextPriceId, price, now, s.nextProductId⟩],
         nextProductId := s.nextProductId + 1,
         nextPriceId := s.nextPriceId + 1 })

/-- `ProductResource.delete` (src/app.py lines 155-160): 404 (`none`) when
no product has the id; otherwise the product row is deleted and — per the
`cascade="all, delete-orphan"` relationship (src/app.py line 30) — every
`PriceHistory` row referencing it is deleted in the same commit. -/
def ProductResource_delete (s : Store) (pid : Nat) : Option Store :=
  match s.products.find? (fun p => p.id == pid) with
  | none => none
  | some _ =>
    some { s with
      products := s.products.filter (fun p => p.id != pid),
      prices := s.prices.filter (fun e => e.product_id != pid) }

/-- Head of a stable sort that places the insertion-order-last row first
among equal timestamps: the last row in insertion order whose timestamp is
maximal.  This follows the spec's words for `latestPrice` — "the most
recently appended entry for that product (by timestamp, ties broken by
insertion order)" — and exists only to be compared with the query model
`last_price_entry`. -/
def specArgmaxTs : List PriceHistory → Option PriceHistory
  | [] => none
  | e :: es =>
    match specArgmaxTs es with
    | none => some e
    | some b => if b.timestamp ≥ e.timestamp then some b else some e

/-- `latestPrice` as the spec words it (see `specArgmaxTs`). -/
def latestPrice_spec (s : Store) (pid : Nat) : Option PriceHistory :=
  specArgmaxTs (historyOf s pid)

/- Concrete fixtures used by counterexamples and witnesses. -/

/-- A selector table with a correctly shaped (price, name) tuple entry,
for exercising the success paths. -/
def selTest : List (String × SelEntry) :=
  [("shop.test", SelEntry.pair "#price" "#name")]

/-- A page whose name element reads "Widget" and price element "999". -/
def docTest : Doc :=
  fun sel => if sel == "#name" then some "Widget"
             else if sel == "#price" then some "999" else none

/-- A web on which every fetch succeeds and returns `docTest`. -/
def envTest : WebEnv := ⟨fun _ => some docTest⟩

/-- A web on which every fetch raises `requests.RequestException`. -/
def envFail : WebEnv := ⟨fun _ => none⟩

/-- A URL of the one configured domain. -/
def ozonUrl : String := "https://www.ozon.ru/product/x"

/-- A URL whose domain has no entry in any selector table used here. -/
def unknownUrl : String := "https://unknown.example/x"

/-- A URL of the `selTest` domain. -/
def createUrl : String := "https://shop.test/p1"

/-- The product `ProductList_post` creates from `createUrl` on `envTest`. -/
def wCreatedProd : Product := ⟨1, createUrl, "Widget", "shop.test"⟩

/-- The store `ProductList_post` produces from the empty store. -/
def wCreatedStore : Store := ⟨[wCreatedProd], [⟨1, 999, 7, 1⟩], 2, 2⟩

/-- The empty store with fresh counters, as `db.create_all()` leaves it. -/
def emptyStore : Store := ⟨[], [], 1, 1⟩

/-- A tracked product used by the reconciliation fixtures. -/
def wProd : Product := ⟨1, "https://shop.test/a", "A", "shop.test"⟩

/-- A store in which `wProd` has one recorded price, 100. -/
def wStoreC1 : Store := ⟨[wProd], [⟨1, 100, 1, 1⟩], 2, 2⟩

/-- Two history rows for product 1 with the same timestamp: row 1 inserted
before row 2. -/
def cexE1 : PriceHistory := ⟨1, 10, 5, 1⟩

/-- See `cexE1`. -/
def cexE2 : PriceHistory := ⟨2, 20, 5, 1⟩

/-- A store whose product 1 carries the tied-timestamp rows `cexE1`,
`cexE2`. -/
def cexStore : Store := ⟨[wProd], [cexE1, cexE2], 2, 3⟩

/-- A store whose product 1 carries two rows with increasing timestamps. -/
def w8Store : Store := ⟨[wProd], [⟨1, 10, 1, 1⟩, ⟨2, 20, 2, 1⟩], 2, 3⟩

/-- Two products for the delete fixture. -/
def w6A : Product := ⟨1, "https://shop.test/a", "A", "shop.test"⟩

/-- See `w6A`. -/
def w6B : Product := ⟨2, "https://shop.test/b", "B", "shop.test"⟩

/-- Both products tracked; product 1 has two history rows, product 2 one. -/
def w6Store : Store := ⟨[w6A, w6B], [⟨1, 5, 1, 1⟩, ⟨2, 6, 1, 2⟩, ⟨3, 7, 2, 1⟩], 3, 4⟩

/-- `w6Store` after deleting product 1. -/
def w6StoreAfter : Store := ⟨[w6B], [⟨2, 6, 1, 2⟩], 3, 4⟩

/-- A product whose domain no table used here supports: its scrape fails. -/
def w7A : Product := ⟨1, "https://bad.test/x", "A", "bad.test"⟩

/-- A product of the `selTest` domain: its scrape succeeds on `envTest`. -/
def w7B : Product := ⟨2, createUrl, "B", "shop.test"⟩

/-- Both products tracked; product 2's last recorded price is 900. -/
def w7Store : Store := ⟨[w7A, w7B], [⟨1, 900, 1, 2⟩], 3, 2⟩

/-- A page on which every selector matches, with text "999". -/
def ozonWitnessDoc : Doc := fun _ => some "999"

/-- A web on which every fetch succeeds with `ozonWitnessDoc`. -/
def ozonWitnessEnv : WebEnv := ⟨fun _ => some ozonWitnessDoc⟩

/-! Helper lemmas shared by several results. -/

/-- One reconciliation step never touches the product table or the
product-id counter, and extends the price table only by rows for the
product being reconciled. -/
theorem reconcile_step_frame (res : Option (String × Rat)) (s : Store) (prod : Product)
    (now : Nat) :
    (reconcile_step res s prod now).products = s.products
    ∧ ∃ t, (reconcile_step res s prod now).prices = s.prices ++ t
        ∧ ∀ e ∈ t, e.product_id = prod.id := by
  cases res with
  | none => exact ⟨rfl, [], (List.append_nil _).symm, by simp⟩
  | some np =>
    obtain ⟨nm, p⟩ := np
    simp only [reconcile_step]
    split
    · exact ⟨rfl, [⟨s.nextPriceId, p, now, prod.id⟩], rfl, by simp⟩
    · split
      · exact ⟨rfl, [⟨s.nextPriceId, p, now, prod.id⟩], rfl, by simp⟩
      · exact ⟨rfl, [], (List.append_nil _).symm, by simp⟩

/-- Folding reconciliation steps over any product list preserves the
product table and only appends to the price table. -/
theorem foldl_reconcile_frame (f : Product → Option (String × Rat)) (now : Nat) :
    ∀ (l : List Product) (s : Store),
      ((l.foldl (fun st prod => reconcile_step (f prod) st prod now) s).products = s.products
       ∧ ∃ t, (l.foldl (fun st prod => reconcile_step (f prod) st prod now) s).prices
           = s.prices ++ t)
  | [], s => ⟨rfl, [], (List.append_nil _).symm⟩
  | prod :: l, s => by
    simp only [List.foldl_cons]
    obtain ⟨h1, t1, h2, _⟩ := reconcile_step_frame (f prod) s prod now
    obtain ⟨ih1, t2, ih2⟩ :=
      foldl_reconcile_frame f now l (reconcile_step (f prod) s prod now)
    refine ⟨by rw [ih1, h1], t1 ++ t2, ?_⟩
    rw [ih2, h2, List.append_assoc]

/-- If every listed product that carries the id `pid` fails to scrape, a
fold of reconciliation steps leaves the history of `pid` unchanged. -/
theorem foldl_reconcile_history_invariant (f : Product → Option (String × Rat)) (now : Nat)
    (pid : Nat) :
    ∀ (l : List Product) (s : Store),
      (∀ r ∈ l, r.id = pid → f r = none) →
      historyOf (l.foldl (fun st prod => reconcile_step (f prod) st prod now) s) pid
        = historyOf s pid
  | [], _, _ => rfl
  | prod :: l, s, h => by
    simp only [List.foldl_cons]
    rw [foldl_reconcile_history_invariant f now pid l _
      (fun r hr => h r (List.mem_cons_of_mem _ hr))]
    by_cases hid : prod.id = pid
    · rw [h prod (List.mem_cons_self _ _) hid]
      exact rfl
    · obtain ⟨_, t, ht, hall⟩ := reconcile_step_frame (f prod) s prod now
      unfold historyOf
      rw [ht, List.filter_append]
      have hnil : t.filter (fun e => e.product_id == pid) = [] := by
        rw [List.filter_eq_nil_iff]
        intro e he
        simp only [beq_iff_eq]
        rw [hall e he]
        exact hid
      rw [hnil, List.append_nil]

/-- `argmaxTs` is `none` exactly on the empty list. -/
theorem argmaxTs_eq_none_iff (l : List PriceHistory) : argmaxTs l = none ↔ l = [] := by
  cases l with
  | nil => simp [argmaxTs]
  | cons e es =>
    simp only [argmaxTs]
    cases argmaxTs es with
    | none => simp
    | some b =>
      by_cases hb : b.timestamp > e.timestamp <;> simp [hb]

/-- When every earlier row has a strictly smaller timestamp, the last row
wins the descending-timestamp sort. -/
theorem argmaxTs_concat_of_lt (e : PriceHistory) :
    ∀ (l : List PriceHistory), (∀ f ∈ l, f.timestamp < e.timestamp) →
      argmaxTs (l ++ [e]) = some e
  | [], _ => rfl
  | f :: l, h => by
    have ih := argmaxTs_concat_of_lt e l (fun g hg => h g (List.mem_cons_of_mem _ hg))
    have hf : f.timestamp < e.timestamp := h f (List.mem_cons_self _ _)
    show argmaxTs (f :: (l ++ [e])) = some e
    rw [argmaxTs, ih]
    simp [hf]

/-! The claims. -/

/-- Claim C1: one reconciliation step, given a successful extraction with
price `p`, appends exactly one new `PriceHistory` row precisely when the
product has no previous row or its last recorded price differs from `p`
(exact inequality, no tolerance band); when the last recorded price equals
`p` exactly — and likewise when extraction fails — the store, and in
particular the product's history, is unchanged. -/
theorem reconcile_appends_iff_price_changed (s : Store) (prod : Product) (nm : String)
    (p : Rat) (now : Nat) :
    (reconcile_step none s prod now = s)
    ∧ (last_price_entry s prod.id = none →
        (reconcile_step (some (nm, p)) s prod now).prices
          = s.prices ++ [⟨s.nextPriceId, p, now, prod.id⟩])
    ∧ (∀ e, last_price_entry s prod.id = some e → e.price ≠ p →
        (reconcile_step (some (nm, p)) s prod now).prices
          = s.prices ++ [⟨s.nextPriceId, p, now, prod.id⟩])
    ∧ (∀ e, last_price_entry s prod.id = some e → e.price = p →
        reconcile_step (some (nm, p)) s prod now = s) := by
  refine ⟨rfl, ?_, ?_, ?_⟩
  · intro h
    simp only [reconcile_step, h, appendPrice]
  · intro e he hne
    simp only [reconcile_step, he, if_pos hne, appendPrice]
  · intro e he heq
    simp only [reconcile_step, he]
    rw [if_neg (fun hn => hn heq)]

/-- Concrete run of C1: last recorded price 100; a fetch of 100.5 appends
one row, a fetch of exactly 100 is a no-op. -/
theorem reconcile_appends_iff_price_changed_witness :
    last_price_entry wStoreC1 wProd.id = some ⟨1, 100, 1, 1⟩
    ∧ (reconcile_step (some ("A", 201/2)) wStoreC1 wProd 9).prices
        = wStoreC1.prices ++ [⟨2, 201/2, 9, 1⟩]
    ∧ reconcile_step (some ("A", 100)) wStoreC1 wProd 9 = wStoreC1 :=
  ⟨by decide,
   (reconcile_appends_iff_price_changed wStoreC1 wProd "A" (201/2) 9).2.2.1
     ⟨1, 100, 1, 1⟩ (by decide) (show (100 : Rat) ≠ 201/2 by norm_num),
   (reconcile_appends_iff_price_changed wStoreC1 wProd "A" 100 9).2.2.2
     ⟨1, 100, 1, 1⟩ (by decide) rfl⟩

/-- Claim C2: a successful `ProductList.post` adds the `Product` row and
its seed `PriceHistory` row in the single committed transition (one atomic
unit — in the model one state transition, so the product is never
observable without its seed entry), and immediately afterwards the
product's history is exactly that one seed entry.  The freshness
hypothesis — no existing history row carries the id the product is about
to receive — is the database's autoincrement/foreign-key invariant. -/
theorem post_creates_product_with_seed_history (selectors : List (String × SelEntry))
    (env : WebEnv) (s : Store) (url : String) (now : Nat) (prod : Product) (s' : Store)
    (hfresh : ∀ e ∈ s.prices, e.product_id ≠ s.nextProductId)
    (h : ProductList_post selectors env s url now = (CreateResult.created prod, s')) :
    ∃ nm p, scrape_product_data selectors env url = some (nm, p)
      ∧ prod = ⟨s.nextProductId, url, nm, netloc url⟩
      ∧ s'.products = s.products ++ [prod]
      ∧ s'.prices = s.prices ++ [⟨s.nextPriceId, p, now, prod.id⟩]
      ∧ historyOf s' prod.id = [⟨s.nextPriceId, p, now, prod.id⟩] := by
  unfold ProductList_post at h
  cases hfind : s.products.find? (fun q => q.url == url) with
  | some q => rw [hfind] at h; cases h
  | none =>
    rw [hfind] at h
    cases hscrape : scrape_product_data selectors env url with
    | none => rw [hscrape] at h; cases h
    | some np =>
      obtain ⟨nm, p⟩ := np
      rw [hscrape] at h
      simp only [Prod.mk.injEq, CreateResult.created.injEq] at h
      obtain ⟨hprod, hs'⟩ := h
      refine ⟨nm, p, rfl, hprod.symm, ?_, ?_, ?_⟩
      · rw [← hs', ← hprod]
      · rw [← hs', ← hprod]
      · rw [← hs', ← hprod]
        unfold historyOf
        show List.filter _ (s.prices ++ [⟨s.nextPriceId, p, now, s.nextProductId⟩]) = _
        rw [List.filter_append]
        have h1 : s.prices.filter (fun e => e.product_id == s.nextProductId) = [] := by
          rw [List.filter_eq_nil_iff]
          intro e he
          simp only [beq_iff_eq]
          exact hfresh e he
        rw [h1]
        simp

/-- Concrete run of C2: creating `createUrl` in the empty store yields the
product with id 1 and exactly its seed history row (price 999, time 7). -/
theorem post_creates_product_with_seed_history_witness :
    (∀ e ∈ emptyStore.prices, e.product_id ≠ emptyStore.nextProductId)
    ∧ ProductList_post selTest envTest emptyStore createUrl 7
        = (CreateResult.created wCreatedProd, wCreatedStore)
    ∧ ∃ nm p, scrape_product_data selTest envTest createUrl = some (nm, p)
      ∧ wCreatedProd = ⟨emptyStore.nextProductId, createUrl, nm, netloc createUrl⟩
      ∧ wCreatedStore.products = emptyStore.products ++ [wCreatedProd]
      ∧ wCreatedStore.prices
          = emptyStore.prices ++ [⟨emptyStore.nextPriceId, p, 7, wCreatedProd.id⟩]
      ∧ historyOf wCreatedStore wCreatedProd.id
          = [⟨emptyStore.nextPriceId, p, 7, wCreatedProd.id⟩] :=
  ⟨by decide, by decide,
   post_creates_product_with_seed_history selTest envTest emptyStore createUrl 7
     wCreatedProd wCreatedStore (by decide) (by decide)⟩

/-- Claim C3: `ProductList.post` on a URL already tracked returns the 409
conflict outcome and leaves the store exactly as it was — the `abort`
raises before anything is added, removed or modified. -/
theorem post_duplicate_url_conflict (selectors : List (String × SelEntry)) (env : WebEnv)
    (s : Store) (url : String) (now : Nat)
    (h : ∃ q ∈ s.products, q.url = url) :
    ProductList_post selectors env s url now = (CreateResult.conflict409, s) := by
  obtain ⟨q, hq, hu⟩ := h
  have hsome : (s.products.find? (fun r => r.url == url)).isSome := by
    rw [List.find?_isSome]
    exact ⟨q, hq, by simp [hu]⟩
  unfold ProductList_post
  cases hfind : s.products.find? (fun r => r.url == url) with
  | none => rw [hfind] at hsome; simp at hsome
  | some r => rfl

/-- Concrete run of C3: re-posting `createUrl` against the store already
tracking it yields the conflict outcome and the identical store. -/
theorem post_duplicate_url_conflict_witness :
    (∃ q ∈ wCreatedStore.products, q.url = createUrl)
    ∧ ProductList_post selTest envTest wCreatedStore createUrl 9
        = (CreateResult.conflict409, wCreatedStore) :=
  ⟨⟨wCreatedProd, by decide, rfl⟩,
   post_duplicate_url_conflict selTest envTest wCreatedStore createUrl 9
     ⟨wCreatedProd, by decide, rfl⟩⟩

/-- Claim C4 (code bug, src/app.py line 96): the cleaning chain does
convert the decimal comma to a decimal point, but the following
`filter(str.isdigit or str.isclose, ...)` — which short-circuits to
`filter(str.isdigit, ...)` — then deletes that decimal point, so the text
"100,50 ₽" (equally "100.50") parses to 10050 rather than to the 100.5
the specification describes. -/
theorem normalizePrice_discards_decimal_point :
    cleanPriceText "100,50 ₽" = "100.50"
    ∧ normalizePrice "100,50 ₽" = some 10050
    ∧ normalizePrice "100.50" = some 10050
    ∧ (10050 : Rat) ≠ (100.5 : Rat) :=
  ⟨by decide, by decide, by decide, by norm_num⟩

/-- Claim C5: the extractor's result is always the `(name, price)` pair or
the `(None, None)` sentinel (the model's `Option` type states this by
construction); every exception its body raises is caught at the function
boundary and converted to that sentinel, and a URL whose domain has no
selector entry always yields the failure outcome, never an uncaught
fault. -/
theorem scrape_failures_contained (selectors : List (String × SelEntry)) (env : WebEnv)
    (url : String) :
    (∀ exc, scrape_body selectors env url = Except.error exc →
        scrape_product_data selectors env url = none)
    ∧ (lookupSel selectors (netloc url) = none →
        scrape_product_data selectors env url = none) := by
  constructor
  · intro exc h
    unfold scrape_product_data
    rw [h]
  · intro h
    unfold scrape_product_data scrape_body
    cases env.fetch url with
    | none => rfl
    | some doc => rw [h]

/-- Concrete runs of C5: a fetch failure is caught, and an unsupported
domain (`unknown.example` under the shipped table) yields the sentinel. -/
theorem scrape_failures_contained_witness :
    scrape_body SITE_SELECTORS envFail ozonUrl = Except.error ScrapeExc.requestException
    ∧ scrape_product_data SITE_SELECTORS envFail ozonUrl = none
    ∧ lookupSel SITE_SELECTORS (netloc unknownUrl) = none
    ∧ scrape_product_data SITE_SELECTORS envTest unknownUrl = none :=
  ⟨rfl,
   (scrape_failures_contained SITE_SELECTORS envFail ozonUrl).1
     ScrapeExc.requestException rfl,
   by decide,
   (scrape_failures_contained SITE_SELECTORS envTest unknownUrl).2 (by decide)⟩

/-- Claim C6: deleting a stored product removes, in the same committed
transition, the product row and every history row referencing it — no row
with the deleted product id survives — while every other product and every
history row of other products is untouched. -/
theorem delete_cascades_price_history (s : Store) (pid : Nat) (s' : Store)
    (h : ProductResource_delete s pid = some s') :
    historyOf s' pid = []
    ∧ (∀ e : PriceHistory, e ∈ s'.prices ↔ e ∈ s.prices ∧ e.product_id ≠ pid)
    ∧ (∀ q : Product, q ∈ s'.products ↔ q ∈ s.products ∧ q.id ≠ pid) := by
  unfold ProductResource_delete at h
  cases hfind : s.products.find? (fun p => p.id == pid) with
  | none => rw [hfind] at h; cases h
  | some q =>
    rw [hfind] at h
    obtain rfl : _ = s' := Option.some.inj h
    refine ⟨?_, ?_, ?_⟩
    · unfold historyOf
      rw [List.filter_eq_nil_iff]
      intro e he
      simp only [List.mem_filter, bne_iff_ne] at he
      simp only [beq_iff_eq]
      exact he.2
    · intro e
      simp [List.mem_filter, bne_iff_ne]
    · intro q'
      simp [List.mem_filter, bne_iff_ne]

/-- Concrete run of C6: deleting product 1 from `w6Store` removes it and
both of its history rows and keeps product 2's row. -/
theorem delete_cascades_price_history_witness :
    ProductResource_delete w6Store 1 = some w6StoreAfter
    ∧ (historyOf w6StoreAfter 1 = []
       ∧ (∀ e : PriceHistory, e ∈ w6StoreAfter.prices ↔ e ∈ w6Store.prices ∧ e.product_id ≠ 1)
       ∧ (∀ q : Product, q ∈ w6StoreAfter.products ↔ q ∈ w6Store.products ∧ q.id ≠ 1)) :=
  ⟨by decide, delete_cascades_price_history w6Store 1 w6StoreAfter (by decide)⟩

/-- Claim C7: in a scheduled cycle, a product whose extraction fails keeps
its history unchanged (first part: any product id, all of whose carriers
fail to scrape), and one product's failure does not prevent the
reconciliation of the others — in the claim's two-product scenario the
cycle's whole effect is exactly B's reconciliation while A's history is
untouched.  The cycle is a total function of the model: the loop body's
only fallible call is `scrape_product_data`, which catches its exceptions
(`scrape_failures_contained`), so no fault surfaces past the loop. -/
theorem update_job_isolates_failures (selectors : List (String × SelEntry)) (env : WebEnv)
    (s : Store) (now : Nat) :
    (∀ pid, (∀ r ∈ s.products, r.id = pid → scrape_product_data selectors env r.url = none) →
        historyOf (update_prices_job selectors env s now) pid = historyOf s pid)
    ∧ (∀ A B nm p, s.products = [A, B] → A.id ≠ B.id →
        scrape_product_data selectors env A.url = none →
        scrape_product_data selectors env B.url = some (nm, p) →
        update_prices_job selectors env s now = reconcile_step (some (nm, p)) s B now
        ∧ historyOf (update_prices_job selectors env s now) A.id = historyOf s A.id) := by
  constructor
  · intro pid h
    exact foldl_reconcile_history_invariant
      (fun prod => scrape_product_data selectors env prod.url) now pid s.products s h
  · intro A B nm p hprods hne hA hB
    have hjob : update_prices_job selectors env s now
        = reconcile_step (some (nm, p)) s B now := by
      unfold update_prices_job
      rw [hprods]
      simp only [List.foldl_cons, List.foldl_nil, hA, hB]
      rfl
    refine ⟨hjob, ?_⟩
    rw [hjob]
    obtain ⟨_, t, ht, hall⟩ := reconcile_step_frame (some (nm, p)) s B now
    unfold historyOf
    rw [ht, List.filter_append]
    have hnil : t.filter (fun e => e.product_id == A.id) = [] := by
      rw [List.filter_eq_nil_iff]
      intro e he
      simp only [beq_iff_eq]
      rw [hall e he]
      exact fun hEq => hne hEq.symm
    rw [hnil, List.append_nil]

/-- Concrete run of C7: A's domain is unsupported (its scrape fails), B's
scrape succeeds with a changed price; the cycle is exactly B's
reconciliation and A's history is unchanged. -/
theorem update_job_isolates_failures_witness :
    scrape_product_data selTest envTest w7A.url = none
    ∧ scrape_product_data selTest envTest w7B.url = some ("Widget", 999)
    ∧ (update_prices_job selTest envTest w7Store 9
         = reconcile_step (some ("Widget", 999)) w7Store w7B 9
       ∧ historyOf (update_prices_job selTest envTest w7Store 9) w7A.id
           = historyOf w7Store w7A.id) :=
  ⟨by decide, by decide,
   (update_job_isolates_failures selTest envTest w7Store 9).2 w7A w7B "Widget" 999 rfl
     (by decide) (by decide) (by decide)⟩

/-- Claim C8 (amended): the latest-price lookup returns the absent outcome
exactly when the product has no history entries, and returns the most
recently appended entry whenever every earlier entry has a strictly
smaller timestamp; but with tied maximal timestamps the query's
`ORDER BY timestamp DESC` names no tiebreaker and the first-inserted tied
row is returned, not the insertion-order-latest one (counterexample:
`last_price_entry_tie_not_insertion_order`). -/
theorem last_price_entry_returns_max_timestamp (s : Store) (pid : Nat) :
    (last_price_entry s pid = none ↔ historyOf s pid = [])
    ∧ (∀ l e, historyOf s pid = l ++ [e] → (∀ f ∈ l, f.timestamp < e.timestamp) →
        last_price_entry s pid = some e) := by
  constructor
  · exact argmaxTs_eq_none_iff _
  · intro l e hl h
    unfold last_price_entry
    rw [hl]
    exact argmaxTs_concat_of_lt e l h

/-- Concrete run of C8 (amended): with strictly increasing timestamps the
query returns the most recently appended row. -/
theorem last_price_entry_returns_max_timestamp_witness :
    historyOf w8Store 1 = [⟨1, 10, 1, 1⟩] ++ [⟨2, 20, 2, 1⟩]
    ∧ (∀ f ∈ [(⟨1, 10, 1, 1⟩ : PriceHistory)],
        f.timestamp < (⟨2, 20, 2, 1⟩ : PriceHistory).timestamp)
    ∧ last_price_entry w8Store 1 = some ⟨2, 20, 2, 1⟩ :=
  ⟨by decide, by decide,
   (last_price_entry_returns_max_timestamp w8Store 1).2 [⟨1, 10, 1, 1⟩] ⟨2, 20, 2, 1⟩
     (by decide) (by decide)⟩

/-- Claim C8 counterexample: rows `cexE1` and `cexE2` of product 1 share
their timestamp; under the claim's reading — most recently appended, ties
broken by insertion order (`latestPrice_spec`) — the lookup should return
`cexE2`, but the query model returns `cexE1`. -/
theorem last_price_entry_tie_not_insertion_order :
    historyOf cexStore 1 = [cexE1, cexE2]
    ∧ cexE1.timestamp = cexE2.timestamp
    ∧ latestPrice_spec cexStore 1 = some cexE2
    ∧ last_price_entry cexStore 1 = some cexE1
    ∧ cexE1 ≠ cexE2 := by decide

set_option maxRecDepth 4000 in
/-- Claim C9: the shipped `SITE_SELECTORS` entry for `www.ozon.ru` is one
long string (length 277, not 2), so
`price_selector, name_selector = SITE_SELECTORS[domain]` raises
`ValueError` — a string destructures into two targets only when it has
exactly two characters —, the handler catches it, and every fetched page
of the configured domain yields the `(None, None)` sentinel: extraction
can never succeed for the shipped configuration. -/
theorem ozon_selector_destructuring_fails (env : WebEnv) (url : String) (doc : Doc)
    (hfetch : env.fetch url = some doc) (hdom : netloc url = "www.ozon.ru") :
    ozonSelector.length ≠ 2
    ∧ unpack2 (SelEntry.str ozonSelector) = none
    ∧ scrape_body SITE_SELECTORS env url = Except.error ScrapeExc.valueError
    ∧ scrape_product_data SITE_SELECTORS env url = none := by
  refine ⟨by decide, by decide, ?_, ?_⟩
  · unfold scrape_body
    rw [hfetch, hdom]
    rfl
  · unfold scrape_product_data scrape_body
    rw [hfetch, hdom]
    rfl

/-- Concrete run of C9: an ozon URL on a web whose fetch succeeds and
whose page would satisfy any selector still scrapes to the sentinel. -/
theorem ozon_selector_destructuring_fails_witness :
    ozonWitnessEnv.fetch ozonUrl = some ozonWitnessDoc
    ∧ netloc ozonUrl = "www.ozon.ru"
    ∧ scrape_product_data SITE_SELECTORS ozonWitnessEnv ozonUrl = none :=
  ⟨rfl, by decide,
   (ozon_selector_destructuring_fails ozonWitnessEnv ozonUrl ozonWitnessDoc rfl
     (by decide)).2.2.2⟩

/-- Claim C10: a scheduled cycle never modifies or deletes anything that
already exists — the product table comes back unchanged row for row (in
particular the re-extracted name is discarded and every stored id, url,
name and domain is intact), and the prior price-history rows form a
prefix of the new table: the cycle's only mutation is appending rows. -/
theorem update_job_only_appends_history (selectors : List (String × SelEntry)) (env : WebEnv)
    (s : Store) (now : Nat) :
    (update_prices_job selectors env s now).products = s.products
    ∧ ∃ t, (update_prices_job selectors env s now).prices = s.prices ++ t :=
  foldl_reconcile_frame (fun prod => scrape_product_data selectors env prod.url) now
    s.products s
